import Mathlib

/-
Verification development for the ssync synchronization tool (src/main.go).

The embedding models the pure computations of the program directly:
string and path manipulation from the Go standard library (strings.HasPrefix,
strings.TrimPrefix, filepath.Match, filepath.Base, filepath.Clean,
filepath.Rel on Unix, no volume names) and the functions of main.go
(isExcluded, isWatchedEvent, formatRemotePath, loadIgnoreFile parsing,
runRsync argument assembly, the debounce loop of startWatcher and the
control flow of main).  Go byte indexing coincides with character indexing
for the ASCII patterns and paths involved; strings are Lean String values
processed through their character lists.
-/

/-- Character-list test that the first list is a leading segment of the
second; helper for the model of Go strings.HasPrefix. -/
def listIsPre : List Char → List Char → Bool
  | [], _ => true
  | _ :: _, [] => false
  | a :: as2, b :: bs2 => a == b && listIsPre as2 bs2

/-- Models Go strings.HasPrefix (and the Unix case of filepath.IsAbs when
applied with the separator string). -/
def strStartsWith (s pre : String) : Bool := listIsPre pre.data s.data

/-- Models Go strings.TrimPrefix. -/
def goTrimPrefixS (s pre : String) : String :=
  if strStartsWith s pre then String.mk (s.data.drop pre.data.length) else s

/-- Whitespace recognizer for the model of Go strings.TrimSpace: the
Latin-1 range of unicode.IsSpace (space, tab, newline, vertical tab, form
feed, carriage return, next line, no-break space). -/
def isSpaceChar (c : Char) : Bool :=
  c == ' ' || c == '\t' || c == '\n' || c == '\x0b' || c == '\x0c' || c == '\r'
  || c == '\u0085' || c == '\u00A0'

/-- Models Go strings.TrimSpace on the line content of ignore files. -/
def trimSpace (s : String) : String :=
  String.mk ((s.data.dropWhile isSpaceChar).reverse.dropWhile isSpaceChar).reverse

/-- Models Go strings.ToLower for the ASCII change-kind names. -/
def toLowerAscii (s : String) : String := String.mk (s.data.map Char.toLower)

/-- Models Go filepath.Base on Unix (no volume names): strip trailing
separators, take the final element, empty result means the path was all
separators. -/
def goBase (path : String) : String :=
  if path == "" then "."
  else
    let cs := (path.data.reverse.dropWhile (fun c => c == '/')).reverse
    let b := (cs.reverse.takeWhile (fun c => c != '/')).reverse
    if b.isEmpty then "/" else String.mk b

/-- Models scanChunk of Go path/filepath: strip leading stars. -/
def stripStars : List Char → Bool × List Char
  | [] => (false, [])
  | c :: rest =>
    if c == '*' then (true, (stripStars rest).2)
    else (false, c :: rest)

/-- Models scanChunk of Go path/filepath: scan up to the next unbracketed
star, keeping escaped pairs together. -/
def chunkSplit : Bool → List Char → List Char × List Char
  | _, [] => ([], [])
  | inrange, c :: rest =>
    if c == '\\' then
      match rest with
      | d :: rest2 =>
        let p := chunkSplit inrange rest2
        (c :: d :: p.1, p.2)
      | [] => ([c], [])
    else if c == '[' then
      let p := chunkSplit true rest
      (c :: p.1, p.2)
    else if c == ']' then
      let p := chunkSplit false rest
      (c :: p.1, p.2)
    else if c == '*' && !inrange then
      ([], c :: rest)
    else
      let p := chunkSplit inrange rest
      (c :: p.1, p.2)

/-- Models scanChunk of Go path/filepath. -/
def scanChunk (pattern : List Char) : Bool × List Char × List Char :=
  let sp := stripStars pattern
  let cp := chunkSplit false sp.2
  (sp.1, cp.1, cp.2)

/-- Models getEsc of Go path/filepath: read one possibly escaped character
of a character class.  The error value models ErrBadPattern. -/
def getEsc : List Char → Except Unit (Char × List Char)
  | [] => .error ()
  | c :: rest =>
    if c == '-' || c == ']' then .error ()
    else if c == '\\' then
      match rest with
      | [] => .error ()
      | r :: rest2 => if rest2.isEmpty then .error () else .ok (r, rest2)
    else
      if rest.isEmpty then .error () else .ok (c, rest)

/-- Models the range-parsing loop of the character-class case of matchChunk
in Go path/filepath; returns whether the character r matched one of the
ranges, and the remaining chunk.  Fuel bounds the loop; every iteration
consumes at least one chunk character, so fuel chunk.length + 1 never runs
out. -/
def parseRanges : Char → Bool → Nat → List Char → Nat → Except Unit (Bool × List Char)
  | _, _, _, _, 0 => .error ()
  | r, m, nrange, chunk, fuel + 1 =>
    match chunk with
    | ']' :: rest =>
      if nrange > 0 then .ok (m, rest)
      else .error ()
    | _ =>
      match getEsc chunk with
      | .error _ => .error ()
      | .ok lo =>
        match (match lo.2 with
               | '-' :: tl => getEsc tl
               | _ => .ok (lo.1, lo.2)) with
        | .error _ => .error ()
        | .ok hi =>
          parseRanges r (m || (decide (lo.1 ≤ r) && decide (r ≤ hi.1))) (nrange + 1) hi.2 fuel

/-- Models matchChunk of Go path/filepath: match a chunk (no stars) against
the front of a name, tracking the failed flag exactly as the Go code does so
that pattern-syntax errors are still detected after a mismatch.  Every
iteration consumes at least one chunk character, so fuel chunk.length + 1
never runs out.  The unreachable name-exhausted branches mirror the Go
invariant that failed is already set when the name is empty. -/
def matchChunkF : Nat → List Char → List Char → Bool → Except Unit (List Char × Bool)
  | 0, _, _, _ => .error ()
  | fuel + 1, chunk, s, failed0 =>
    match chunk with
    | [] => if failed0 then .ok ([], false) else .ok (s, true)
    | c :: rest =>
      let failed := failed0 || s.isEmpty
      if c == '[' then
        let rs : Char × List Char :=
          if failed then (Char.ofNat 0, s)
          else
            match s with
            | [] => (Char.ofNat 0, [])
            | ch :: st => (ch, st)
        let ng : Bool × List Char :=
          match rest with
          | hd :: tl => if hd == '^' then (true, tl) else (false, hd :: tl)
          | [] => (false, [])
        match parseRanges rs.1 false 0 ng.2 (ng.2.length + 1) with
        | .error _ => .error ()
        | .ok mc => matchChunkF fuel mc.2 rs.2 (failed || (mc.1 == ng.1))
      else if c == '?' then
        if failed then matchChunkF fuel rest s true
        else
          match s with
          | [] => matchChunkF fuel rest [] true
          | ch :: st => matchChunkF fuel rest st (ch == '/')
      else
        match (if c == '\\' then rest else c :: rest) with
        | [] => .error ()
        | c2 :: rest2 =>
          if failed then matchChunkF fuel rest2 s true
          else
            match s with
            | [] => matchChunkF fuel rest2 [] true
            | ch :: st => matchChunkF fuel rest2 st (c2 != ch)

/-- Models the pattern-validation loop that Go filepath.Match runs before
returning a non-error false: remaining chunks are checked for syntax errors
against the empty name. -/
def validateRest : Nat → List Char → Except Unit Bool
  | 0, _ => .error ()
  | _ + 1, [] => .ok false
  | fuel + 1, p =>
    let sc := scanChunk p
    match matchChunkF (sc.2.1.length + 1) sc.2.1 [] false with
    | .error _ => .error ()
    | .ok _ => validateRest fuel sc.2.2

mutual

/-- Models the main loop of Go filepath.Match.  Fuel is consumed once per
call; the outer loop runs at most pattern.length times and each star retry
consumes one name character, so the generous fuel supplied by goMatch never
runs out. -/
def goMatchF : Nat → List Char → List Char → Except Unit Bool
  | 0, _, _ => .error ()
  | fuel + 1, pat, name =>
    match pat with
    | [] => .ok name.isEmpty
    | _ :: _ =>
      let sc := scanChunk pat
      if sc.1 && sc.2.1.isEmpty then
        .ok (!(name.contains '/'))
      else
        match matchChunkF (sc.2.1.length + 1) sc.2.1 name false with
        | .ok tr =>
          if tr.2 && (tr.1.isEmpty || !sc.2.2.isEmpty) then goMatchF fuel sc.2.2 tr.1
          else if sc.1 then starRetryF fuel sc.2.1 sc.2.2 name
          else validateRest (sc.2.2.length + 1) sc.2.2
        | .error _ => .error ()

/-- Models the star-retry loop of Go filepath.Match: skip one name
character at a time (never a separator) and retry the chunk.  The retry
block carries no return of its own: when the loop exhausts the name or
stops at a separator, control falls through to the validation of the
remaining pattern before the non-error false is returned, so a syntax
error hiding in a later chunk still surfaces as ErrBadPattern. -/
def starRetryF : Nat → List Char → List Char → List Char → Except Unit Bool
  | 0, _, _, _ => .error ()
  | fuel + 1, chunk, rest, name =>
    match name with
    | [] => validateRest (rest.length + 1) rest
    | ch :: nameRest =>
      if ch == '/' then validateRest (rest.length + 1) rest
      else
        match matchChunkF (chunk.length + 1) chunk nameRest false with
        | .error _ => .error ()
        | .ok tr =>
          if tr.2 then
            if rest.isEmpty && !tr.1.isEmpty then starRetryF fuel chunk rest nameRest
            else goMatchF fuel rest tr.1
          else starRetryF fuel chunk rest nameRest

end

/-- Models Go filepath.Match (Unix separator).  The error value models
ErrBadPattern. -/
def goMatch (pattern name : String) : Except Unit Bool :=
  goMatchF ((pattern.data.length + 2) * (name.data.length + 2) + 4) pattern.data name.data

/-- Split a path string at separators, keeping empty segments, as Go's
textual element scanning does. -/
def splitSegsAux : List Char → List Char → List String
  | cur, [] => [String.mk cur.reverse]
  | cur, c :: rest =>
    if c == '/' then String.mk cur.reverse :: splitSegsAux [] rest
    else splitSegsAux (c :: cur) rest

/-- Split a path string at separators. -/
def splitSegs (s : String) : List String := splitSegsAux [] s.data

/-- Element processing of Go filepath.Clean on Unix: drop empty and dot
elements, resolve dotdot against the accumulated output, keeping leading
dotdots of relative paths and discarding dotdots at an absolute root. -/
def cleanSegs : Bool → List String → List String → List String
  | _, acc, [] => acc.reverse
  | rooted, acc, e :: rest =>
    if e == "" || e == "." then cleanSegs rooted acc rest
    else if e == ".." then
      match acc with
      | a :: acc2 =>
        if a == ".." then cleanSegs rooted (".." :: a :: acc2) rest
        else cleanSegs rooted acc2 rest
      | [] =>
        if rooted then cleanSegs rooted [] rest
        else cleanSegs rooted [".."] rest
    else cleanSegs rooted (e :: acc) rest

/-- Join path segments with the separator. -/
def joinSlash : List String → String
  | [] => ""
  | [s] => s
  | s :: rest => s ++ "/" ++ joinSlash rest

/-- Models Go filepath.Clean on Unix. -/
def goClean (path : String) : String :=
  if path == "" then "."
  else
    let rooted := strStartsWith path "/"
    let segs := cleanSegs rooted [] (splitSegs path)
    let out := (if rooted then "/" else "") ++ joinSlash segs
    if out == "" then "." else out

/-- Elements of a cleaned path with any leading separator removed. -/
def pathSegs (p : String) : List String :=
  let q := if strStartsWith p "/" then String.mk (p.data.drop 1) else p
  if q == "" then [] else splitSegs q

/-- Drop the common leading elements of two segment lists, as the
first-difference scan of Go filepath.Rel does. -/
def dropCommon : List String → List String → List String × List String
  | a :: as2, b :: bs2 =>
    if a == b then dropCommon as2 bs2 else (a :: as2, b :: bs2)
  | as2, bs2 => (as2, bs2)

/-- Models Go filepath.Rel on Unix (no volume names): clean both paths,
equal paths give dot, mixing absolute and relative is an error, a dotdot
remaining in the base after removing the common leading elements is an
error, otherwise climb with one dotdot per remaining base element and
descend into the remaining target elements. -/
def goRel (basepath targpath : String) : Except Unit String :=
  let base := goClean basepath
  let targ := goClean targpath
  if targ == base then .ok "."
  else
    let baseSlashed := strStartsWith base "/"
    let targSlashed := strStartsWith targ "/"
    if baseSlashed != targSlashed then .error ()
    else
      let base2 := if base == "." then "" else base
      let pr := dropCommon (pathSegs base2) (pathSegs targ)
      if pr.1.head? == some ".." then .error ()
      else if !pr.1.isEmpty then
        .ok (joinSlash (List.replicate pr.1.length ".." ++ pr.2))
      else .ok (joinSlash pr.2)

/-- The rooted and basename rules of isExcluded in main.go: a pattern
beginning with a separator is compared, stripped, for exact equality with
the relative path; any pattern is compared for exact equality with the
basename of the relative path. -/
def rootedOrBase (relPath pattern : String) : Bool :=
  (strStartsWith pattern "/" && (goTrimPrefixS pattern "/" == relPath))
  || (goBase relPath == pattern)

/-- One iteration of the pattern loop of isExcluded in main.go: a pattern
containing a star is matched as a glob against the basename first (an
invalid glob skips the whole pattern, mirroring the continue statement);
a non-matching or star-free pattern then goes through the rooted and
basename rules. -/
def patternMatches (relPath pattern : String) : Bool :=
  if pattern.data.contains '*' then
    match goMatch pattern (goBase relPath) with
    | .error _ => false
    | .ok true => true
    | .ok false => rootedOrBase relPath pattern
  else rootedOrBase relPath pattern

/-- The pattern loop of isExcluded in main.go: first match wins. -/
def matchExclusions (relPath : String) (exclusions : List String) : Bool :=
  exclusions.any (fun p => patternMatches relPath p)

/-- Models isExcluded of main.go: the event path is first made relative to
the current working directory with filepath.Rel; a normalization failure
(or a failure to read the working directory) is logged and yields false;
otherwise the relative path goes through the pattern loop. -/
def isExcluded (cwd path : String) (exclusions : List String) : Bool :=
  match goRel cwd path with
  | .error _ => false
  | .ok relPath => matchExclusions relPath exclusions

/-- Models formatRemotePath of main.go: empty relative path becomes dot,
leading dot-slash and slash are trimmed, a home-equivalent relative path
yields the address host colon tilde slash, any other relative path is
appended after tilde slash. -/
def formatRemotePath (host relativePath : String) : String :=
  let t0 := if relativePath = "" then "." else relativePath
  let t1 := goTrimPrefixS t0 "./"
  let t2 := goTrimPrefixS t1 "/"
  if t2 = "." ∨ t2 = "" then host ++ ":" ++ "~" ++ "/"
  else host ++ ":" ++ ("~" ++ "/" ++ t2)

/-- Models the classification rule of newEndpoint in main.go: an argument
is local iff it is empty, dot, begins with dot-slash or dotdot-slash, or is
absolute (begins with the separator on Unix). -/
def isLocalArg (arg : String) : Bool :=
  arg == "" || arg == "." || strStartsWith arg "./" || strStartsWith arg "../"
  || strStartsWith arg "/"

/-- Outcome of attempting to read the ignore file, abstracting the result
of os.Open and the scanner in loadIgnoreFile of main.go. -/
inductive IgnoreRead where
  | notExist
  | readError
  | withLines (lines : List String)

/-- The line filter of loadIgnoreFile in main.go: trim whitespace, drop
empty lines and comment lines beginning with the hash character, keep the
remaining trimmed lines in order. -/
def parseIgnoreLines (lines : List String) : List String :=
  lines.filterMap (fun l =>
    let line := trimSpace l
    if line == "" || strStartsWith line "#" then none else some line)

/-- Models loadIgnoreFile of main.go: a missing file yields the empty
exclusion list, any other read error is returned to the caller, a readable
file is filtered line by line. -/
def loadIgnoreFile : IgnoreRead → Except Unit (List String)
  | .notExist => .ok []
  | .readError => .error ()
  | .withLines ls => .ok (parseIgnoreLines ls)

/-- How main ends after the initial synchronization: the watcher is
started, or a notice is printed that watch mode needs a local source and
main returns normally, or watch mode was disabled and main returns
normally. -/
inductive WatchOutcome where
  | watcherStarted
  | skipNotice
  | watchDisabled
deriving DecidableEq

/-- The watch branch at the end of main in main.go. -/
def watchDecision (watch sourceIsLocal : Bool) : WatchOutcome :=
  if watch then
    if sourceIsLocal then .watcherStarted else .skipNotice
  else .watchDisabled

/-- The session inputs of main that the modelled control flow depends on. -/
structure MainConfig where
  watch : Bool
  sourceArg : String
  destArg : String
  ignoreRead : IgnoreRead

/-- Result of the modelled control flow of main: a configuration-error
exit before any transfer, an exit on a failed ignore-file read before any
transfer, or a run that performed the counted initial synchronizations and
ended in the given watch outcome. -/
inductive MainResult where
  | configExit (code : Nat)
  | ignoreExit (code : Nat)
  | ran (initialSyncs : Nat) (outcome : WatchOutcome)
deriving DecidableEq

/-- Models the control flow of main in main.go after argument parsing:
exit 1 when neither endpoint is local, exit 1 when the ignore file exists
but cannot be read, otherwise run one initial synchronization and decide
the watch branch. -/
def mainModel (cfg : MainConfig) : MainResult :=
  let srcLocal := isLocalArg cfg.sourceArg
  let dstLocal := isLocalArg cfg.destArg
  if !srcLocal && !dstLocal then .configExit 1
  else
    match loadIgnoreFile cfg.ignoreRead with
    | .error _ => .ignoreExit 1
    | .ok _ => .ran 1 (watchDecision cfg.watch srcLocal)

/-- Filesystem operation kinds delivered by the notifier, as matched by
isWatchedEvent in main.go. -/
inductive FsOp where
  | write
  | remove
  | chmod
  | create
  | rename
deriving DecidableEq

/-- Models the switch of isWatchedEvent in main.go for one configured
change kind. -/
def opMatches (changeType : String) (op : FsOp) : Bool :=
  let c := toLowerAscii changeType
  if c == "write" then op == .write
  else if c == "remove" then op == .remove
  else if c == "chmod" then op == .chmod
  else if c == "create" then op == .create
  else if c == "rename" then op == .rename
  else false

/-- Models isWatchedEvent of main.go: the event kind is matched
case-insensitively against the configured change list, first match wins. -/
def isWatchedEvent (op : FsOp) (changeList : List String) : Bool :=
  changeList.any (fun ct => opMatches ct op)

/-- One filesystem change event with its arrival time (whole time units;
the Go code measures the debounce window in seconds). -/
structure WatchEvent where
  time : Nat
  op : FsOp
  path : String
deriving DecidableEq

/-- The debounce window of startWatcher in main.go: two seconds. -/
def debounceDelay : Nat := 2

/-- The event filter of the watcher loop in main.go: the event kind must be
in the change list and the path must not be excluded. -/
def qualifies (cwd : String) (exclusions changeList : List String) (e : WatchEvent) : Bool :=
  isWatchedEvent e.op changeList && !(isExcluded cwd e.path exclusions)

/-- One qualifying event hitting the debounce timer slot of startWatcher:
a pending fire whose time has already passed has fired (Stop on an expired
timer is a no-op), a pending future fire is cancelled, and in every case a
single new fire is scheduled one window after the event.  Returns the fire
that became definitive, if any, and the new timer slot. -/
def stepEvent (w : Nat) (pending : Option Nat) (t : Nat) : Option Nat × Option Nat :=
  match pending with
  | none => (none, some (t + w))
  | some f => if f ≤ t then (some f, some (t + w)) else (none, some (t + w))

/-- The watcher loop of startWatcher in main.go over a time-ordered event
list: non-qualifying events leave the timer slot untouched, qualifying
events go through stepEvent, and a fire still pending when the events end
fires after its window.  Returns the times of the synchronization
invocations the debounce mechanism triggers. -/
def watcherRun (w : Nat) (cwd : String) (exclusions changeList : List String)
    (pending : Option Nat) : List WatchEvent → List Nat
  | [] => pending.toList
  | e :: rest =>
    if qualifies cwd exclusions changeList e then
      let s := stepEvent w pending e.time
      s.1.toList ++ watcherRun w cwd exclusions changeList s.2 rest
    else watcherRun w cwd exclusions changeList pending rest

/-- The exclusion arguments of runRsync in main.go: the flag and the
pattern, one pair per exclusion, in list order. -/
def excludeArgs : List String → List String
  | [] => []
  | e :: rest => "--exclude" :: e :: excludeArgs rest

/-- Models the argument assembly of runRsync in main.go: one combined flag
string built from archive mode plus the optional verbose and compression
letters, then the progress flag, then the delete flag, then the exclusion
arguments, then the source with a trailing separator and the destination. -/
def runRsyncArgs (source destination : String) (exclusions : List String)
    (compress verbose progress delete : Bool) : List String :=
  let flags0 := "-a"
  let flags1 := if verbose then flags0 ++ "v" else flags0
  let flags2 := if compress then flags1 ++ "z" else flags1
  let args0 := [flags2]
  let args1 := if progress then args0 ++ ["--progress"] else args0
  let args2 := if delete then args1 ++ ["--delete"] else args1
  (args2 ++ excludeArgs exclusions) ++ [source ++ "/", destination]

/-- Modelled from the spec (section 4.3, Sync Executor): the transfer
argument list stated declaratively, for comparison with the assembly
modelled from the code. -/
def rsyncArgsSpec (source destination : String) (exclusions : List String)
    (compress verbose progress delete : Bool) : List String :=
  ["-a" ++ (if verbose then "v" else "") ++ (if compress then "z" else "")]
  ++ (if progress then ["--progress"] else [])
  ++ (if delete then ["--delete"] else [])
  ++ exclusions.foldr (fun e acc => "--exclude" :: e :: acc) []
  ++ [source ++ "/", destination]

/-- Helper: appending does not disturb the last element when the second
part is nonempty, stated for string data. -/
theorem data_getLast_append (a b : String) (hb : b.data ≠ []) :
    (a ++ b).data.getLast? = b.data.getLast? := by
  rw [String.data_append]
  exact List.getLast?_append_of_ne_nil a.data hb

/-- Helper: fusing the literal pieces of the home-directory remote
address. -/
theorem strFuseHome (host : String) : host ++ ":" ++ "~" ++ "/" = host ++ ":~/" := by
  have h : (":" : String) ++ ("~" ++ "/") = ":~/" := by decide
  rw [String.append_assoc, String.append_assoc, h]

/-- Helper: fusing the literal pieces of the general remote address. -/
theorem strFuseTail (host rp : String) :
    host ++ ":" ++ ("~" ++ "/" ++ rp) = host ++ ":~/" ++ rp := by
  have h1 : ("~" : String) ++ "/" = "~/" := by decide
  have h2 : (":" : String) ++ "~/" = ":~/" := by decide
  rw [h1, String.append_assoc, ← String.append_assoc ":" "~/" rp, h2,
    ← String.append_assoc]

/-- Helper: a Boolean existential over a list is invariant under
permutation of the list. -/
theorem any_eq_of_perm {α : Type} {l1 l2 : List α} (h : l1.Perm l2) (f : α → Bool) :
    l1.any f = l2.any f := by
  cases hb : l2.any f with
  | true =>
    obtain ⟨x, hx, hfx⟩ := List.any_eq_true.mp hb
    exact List.any_eq_true.mpr ⟨x, h.mem_iff.mpr hx, hfx⟩
  | false =>
    cases hb1 : l1.any f with
    | false => rfl
    | true =>
      obtain ⟨x, hx, hfx⟩ := List.any_eq_true.mp hb1
      have h2 := List.any_eq_true.mpr ⟨x, h.mem_iff.mp hx, hfx⟩
      rw [hb] at h2
      cases h2

/-- Helper for the debounce property: once a fire is pending strictly after
the next event, a burst whose consecutive gaps stay inside the window
reschedules at every event and ends with exactly the fire of the last
event. -/
theorem watcherRun_some_eq (w : Nat) (cwd : String) (excl cl : List String) :
    ∀ (ts : List WatchEvent) (f : Nat),
      (∀ e ∈ ts, qualifies cwd excl cl e = true) →
      List.Chain' (fun a b => b.time < a.time + w) ts →
      (∀ e ∈ ts.head?, e.time < f) →
      watcherRun w cwd excl cl (some f) ts
        = [ts.getLast?.elim f (fun e => e.time + w)] := by
  intro ts
  induction ts with
  | nil => intro f _ _ _; rfl
  | cons e rest ih =>
    intro f hq hch hhead
    have hqe : qualifies cwd excl cl e = true := hq e (List.mem_cons_self e rest)
    have hef : e.time < f := hhead e rfl
    have hrest := List.chain'_cons'.mp hch
    have step : watcherRun w cwd excl cl (some f) (e :: rest)
        = watcherRun w cwd excl cl (some (e.time + w)) rest := by
      simp only [watcherRun, hqe, if_true, stepEvent]
      rw [if_neg (Nat.not_le.mpr hef)]
      simp
    rw [step, ih (e.time + w) (fun x hx => hq x (List.mem_cons_of_mem e hx))
      hrest.2 hrest.1]
    cases rest with
    | nil => rfl
    | cons r rs =>
      have hl := List.getLast?_eq_getLast (r :: rs) (by simp)
      rw [List.getLast?_cons_cons, hl]
      rfl

/-- Claim C1, counterexample: a session whose source and destination both
resolve as local does not exit with a configuration error; it proceeds and
performs the initial transfer (the modelled run outcome), contradicting the
claim that a both-local session fails with a non-zero exit and no transfer. -/
theorem c1_counterexample :
    mainModel ⟨false, ".", "/tmp/backup", IgnoreRead.notExist⟩
      = MainResult.ran 1 WatchOutcome.watchDisabled := rfl

/-- Claim C1, amended: only when both endpoints resolve as remote does
endpoint resolution fail with a configuration error, exiting non-zero
before any transfer; a both-local session proceeds. -/
theorem c1_amended_both_remote_config_error (cfg : MainConfig)
    (hs : isLocalArg cfg.sourceArg = false)
    (hd : isLocalArg cfg.destArg = false) :
    mainModel cfg = MainResult.configExit 1 := by
  simp [mainModel, hs, hd]

/-- Claim C1, witness: two remote host arguments make the modelled main
exit with the configuration error before any transfer. -/
theorem c1_witness :
    mainModel ⟨true, "hostA", "hostB", IgnoreRead.notExist⟩ = MainResult.configExit 1 :=
  c1_amended_both_remote_config_error ⟨true, "hostA", "hostB", IgnoreRead.notExist⟩
    (by decide) (by decide)

/-- Claim C2: for a nonempty burst of qualifying events in which every
event arrives strictly before the two-second quiescence window of its
predecessor elapses, the watcher fires exactly one synchronization, at one
window after the last event of the burst; and every qualifying event
replaces the timer slot with exactly one newly scheduled fire, so at most
one deferred synchronization is outstanding at any instant. -/
theorem c2_debounce_single_fire (cwd : String) (excl cl : List String)
    (ts : List WatchEvent) (elast : WatchEvent)
    (hlast : ts.getLast? = some elast)
    (hq : ∀ e ∈ ts, qualifies cwd excl cl e = true)
    (hch : List.Chain' (fun a b => b.time < a.time + debounceDelay) ts) :
    watcherRun debounceDelay cwd excl cl none ts = [elast.time + debounceDelay]
    ∧ ∀ (p : Option Nat) (t : Nat),
        (stepEvent debounceDelay p t).2 = some (t + debounceDelay) := by
  constructor
  · cases ts with
    | nil => simp at hlast
    | cons e rest =>
      have hqe : qualifies cwd excl cl e = true := hq e (List.mem_cons_self e rest)
      have hrest := List.chain'_cons'.mp hch
      have h1 : watcherRun debounceDelay cwd excl cl none (e :: rest)
          = watcherRun debounceDelay cwd excl cl (some (e.time + debounceDelay)) rest := by
        simp [watcherRun, hqe, stepEvent]
      rw [h1, watcherRun_some_eq debounceDelay cwd excl cl rest (e.time + debounceDelay)
        (fun x hx => hq x (List.mem_cons_of_mem e hx)) hrest.2 hrest.1]
      cases rest with
      | nil =>
        rw [List.getLast?_singleton] at hlast
        cases hlast
        rfl
      | cons r rs =>
        rw [List.getLast?_cons_cons] at hlast
        rw [hlast]
        rfl
  · intro p t
    cases p with
    | none => rfl
    | some f =>
      simp only [stepEvent]
      split <;> rfl

/-- Claim C2, witness: two write events one second apart, with the default
window of two seconds, yield exactly one synchronization at time three. -/
theorem c2_witness :
    watcherRun debounceDelay "/w" [] ["write"] none
      [⟨0, FsOp.write, "f"⟩, ⟨1, FsOp.write, "g"⟩] = [3] :=
  (c2_debounce_single_fire "/w" [] ["write"]
    [⟨0, FsOp.write, "f"⟩, ⟨1, FsOp.write, "g"⟩] ⟨1, FsOp.write, "g"⟩
    rfl (by decide) (List.chain'_pair.mpr (by decide))).1

/-- Claim C3, counterexample: with the exclusion list of the claim, a path
whose basename is bin is not excluded: the pattern bin with a trailing
separator contains no star, is not rooted, and never equals a basename, so
the claimed exclusion of bin fails on the code. -/
theorem c3_counterexample :
    isExcluded "/w" "/w/bin" ["*.swp", "/secret", "bin/"] = false := rfl

/-- Claim C3, amended: with the exclusion list of the claim, the swap file
and the root-level secret are excluded and the nested secret is not, as
claimed; but a path whose basename is bin is not excluded, because the
trailing separator of the pattern prevents any rule from matching. -/
theorem c3_amended_examples :
    isExcluded "/w" "/w/notes.swp" ["*.swp", "/secret", "bin/"] = true
    ∧ isExcluded "/w" "/w/secret" ["*.swp", "/secret", "bin/"] = true
    ∧ isExcluded "/w" "/w/sub/secret" ["*.swp", "/secret", "bin/"] = false
    ∧ isExcluded "/w" "/w/bin" ["*.swp", "/secret", "bin/"] = false :=
  ⟨rfl, rfl, rfl, rfl⟩

/-- Claim C4, counterexample: when reading the ignore file fails with an
error other than the file not existing, the modelled main exits with code
one before any transfer, contradicting the claim that the program degrades
to an empty exclusion list and still synchronizes. -/
theorem c4_counterexample :
    mainModel ⟨false, ".", "host", IgnoreRead.readError⟩ = MainResult.ignoreExit 1 := rfl

/-- Claim C4, amended: an ignore-file read error other than not-found is
fatal: the program prints the error and exits with code one before the
initial synchronization; only the not-found case degrades to the empty
exclusion list. -/
theorem c4_amended_ignore_ioerror_fatal (cfg : MainConfig)
    (hloc : (isLocalArg cfg.sourceArg || isLocalArg cfg.destArg) = true)
    (hio : cfg.ignoreRead = IgnoreRead.readError) :
    mainModel cfg = MainResult.ignoreExit 1
    ∧ loadIgnoreFile IgnoreRead.notExist = Except.ok [] := by
  constructor
  · have hand : (!isLocalArg cfg.sourceArg && !isLocalArg cfg.destArg) = false := by
      cases h1 : isLocalArg cfg.sourceArg <;> cases h2 : isLocalArg cfg.destArg <;>
        simp_all
    simp [mainModel, hand, hio, loadIgnoreFile]
  · rfl

/-- Claim C4, witness: a push session from the current directory with an
unreadable ignore file exits with code one. -/
theorem c4_witness :
    mainModel ⟨true, ".", "host", IgnoreRead.readError⟩ = MainResult.ignoreExit 1 :=
  (c4_amended_ignore_ioerror_fatal ⟨true, ".", "host", IgnoreRead.readError⟩
    (by decide) rfl).1

/-- Claim C5: for a relative path shaped like an output of the
relative-path computation (no leading dot-slash, not absolute, no trailing
separator), the remote transfer address is the host, a colon, tilde-slash
and the relative path, with no trailing separator; except that a relative
path reducing to the home directory (dot or empty) yields exactly the
host, a colon and tilde-slash. -/
theorem c5_remote_address_format (host rp : String)
    (h1 : strStartsWith rp "./" = false)
    (h2 : strStartsWith rp "/" = false)
    (h3 : rp.data.getLast? ≠ some '/') :
    ((rp = "." ∨ rp = "") → formatRemotePath host rp = host ++ ":~/")
    ∧ (rp ≠ "." → rp ≠ "" →
        formatRemotePath host rp = host ++ ":~/" ++ rp
        ∧ (formatRemotePath host rp).data.getLast? ≠ some '/') := by
  constructor
  · rintro (h | h) <;> subst h
    · exact (strFuseHome host)
    · exact (strFuseHome host)
  · intro hne hne2
    have heq : formatRemotePath host rp = host ++ ":" ++ ("~" ++ "/" ++ rp) := by
      simp only [formatRemotePath]
      rw [if_neg hne2]
      have t1 : goTrimPrefixS rp "./" = rp := by simp [goTrimPrefixS, h1]
      have t2 : goTrimPrefixS rp "/" = rp := by simp [goTrimPrefixS, h2]
      rw [t1, t2, if_neg (not_or.mpr ⟨hne, hne2⟩)]
    have heq2 : formatRemotePath host rp = host ++ ":~/" ++ rp :=
      heq.trans (strFuseTail host rp)
    refine ⟨heq2, ?_⟩
    rw [heq2]
    have hdata : rp.data ≠ [] := fun h => hne2 (String.ext (h.trans rfl))
    rw [data_getLast_append (host ++ ":~/") rp hdata]
    exact h3

/-- Claim C5, witness: a nested relative path produces the address with no
trailing separator, and the home-directory relative path produces the
trailing-slash home address. -/
theorem c5_witness :
    formatRemotePath "bq" "go/src" = "bq" ++ ":~/" ++ "go/src"
    ∧ formatRemotePath "bq" "." = "bq" ++ ":~/" :=
  ⟨((c5_remote_address_format "bq" "go/src" (by decide) (by decide) (by decide)).2
      (by decide) (by decide)).1,
   (c5_remote_address_format "bq" "." (by decide) (by decide) (by decide)).1
      (Or.inl rfl)⟩

/-- Claim C6, counterexample: a pattern containing the single-character
wildcard but no star is not glob-matched: the glob semantics match the
basename, yet the path is not excluded, contradicting the claim that any
wildcard character triggers glob matching. -/
theorem c6_counterexample :
    matchExclusions "abc" ["a?c"] = false ∧ goMatch "a?c" "abc" = Except.ok true :=
  ⟨rfl, rfl⟩

/-- Claim C6, amended: only patterns containing a star are glob-matched
against the basename; when such a glob matches, the path is excluded, and
when the glob pattern is invalid the pattern is skipped entirely, neither
excluding the path nor affecting the evaluation of the remaining patterns. -/
theorem c6_amended_star_glob (rp p : String) (rest : List String)
    (hstar : p.data.contains '*' = true) :
    (goMatch p (goBase rp) = Except.ok true → matchExclusions rp (p :: rest) = true)
    ∧ (goMatch p (goBase rp) = Except.error () →
        matchExclusions rp (p :: rest) = matchExclusions rp rest) := by
  constructor
  · intro h
    have hp : patternMatches rp p = true := by
      simp only [patternMatches, hstar]
      simp [h]
    simp [matchExclusions, List.any_cons, hp]
  · intro h
    have hp : patternMatches rp p = false := by
      simp only [patternMatches, hstar]
      simp [h]
    simp [matchExclusions, List.any_cons, hp]

/-- Claim C6, witness: the star glob for swap files excludes a swap-file
basename, and an invalid star glob (unterminated character class) is
skipped, leaving the evaluation of the remaining patterns (here none). -/
theorem c6_witness :
    matchExclusions "notes.swp" ["*.swp"] = true
    ∧ matchExclusions "abc" ["*["] = matchExclusions "abc" ([] : List String) :=
  ⟨(c6_amended_star_glob "notes.swp" "*.swp" [] (by decide)).1 rfl,
   (c6_amended_star_glob "abc" "*[" [] (by decide)).2 rfl⟩

/-- Claim C7, counterexample: with working directory distinct from the
watched source directory, the exclusion check normalizes against the
working directory, not the watch root: the event path is the secret file
directly under the watch root, whose path relative to the watch root is
matched by the rooted pattern, yet the code does not exclude it. -/
theorem c7_counterexample :
    isExcluded "/home/u" "/home/u/app/secret" ["/secret"] = false
    ∧ goRel "/home/u/app" "/home/u/app/secret" = Except.ok "secret"
    ∧ matchExclusions "secret" ["/secret"] = true :=
  ⟨rfl, rfl, rfl⟩

/-- Claim C7, amended: before any pattern matching, the exclusion check
normalizes the input path to be relative to the current working directory
(which coincides with the watch root only when the watched source is the
working directory); a normalization failure is non-fatal: it is logged and
the check returns not-excluded. -/
theorem c7_amended_normalization (cwd path : String) (excl : List String) :
    (goRel cwd path = Except.error () → isExcluded cwd path excl = false)
    ∧ ∀ rp, goRel cwd path = Except.ok rp →
        isExcluded cwd path excl = matchExclusions rp excl := by
  constructor
  · intro h
    simp [isExcluded, h]
  · intro rp h
    simp [isExcluded, h]

/-- Claim C7, witness: relativizing a relative path against an absolute
working directory fails, and the check returns not-excluded. -/
theorem c7_witness : isExcluded "/a" "b" ["x"] = false :=
  (c7_amended_normalization "/a" "b" ["x"]).1 rfl

/-- Claim C8: the transfer argument list is exactly the combined flag
string (archive mode always, verbose letter iff verbose, compression
letter iff compression), then the progress flag when progress is enabled,
then the delete flag when delete is enabled, then one exclude flag and
pattern per exclusion in list order, then the source with a trailing
separator and the destination. -/
theorem c8_rsync_args (source destination : String) (exclusions : List String)
    (compress verbose progress delete : Bool) :
    runRsyncArgs source destination exclusions compress verbose progress delete
      = rsyncArgsSpec source destination exclusions compress verbose progress delete := by
  have he : excludeArgs exclusions
      = exclusions.foldr (fun e acc => "--exclude" :: e :: acc) [] := by
    induction exclusions with
    | nil => rfl
    | cons e rest ih => simp [excludeArgs, ih]
  cases verbose <;> cases compress <;> cases progress <;> cases delete <;>
    simp [runRsyncArgs, rsyncArgsSpec, he]

/-- Claim C9: the exclusion check succeeds iff normalization succeeds and
at least one pattern of the list matches the normalized path under the
per-pattern rule; consequently permuting the exclusion list never changes
the result, and the empty exclusion list excludes nothing. -/
theorem c9_existential_or (cwd path : String) (excl excl2 : List String) :
    (isExcluded cwd path excl = true
      ↔ ∃ rp, goRel cwd path = Except.ok rp ∧ ∃ p ∈ excl, patternMatches rp p = true)
    ∧ (excl.Perm excl2 → isExcluded cwd path excl = isExcluded cwd path excl2)
    ∧ isExcluded cwd path ([] : List String) = false := by
  refine ⟨?_, ?_, ?_⟩
  · cases h : goRel cwd path with
    | error e => simp [isExcluded, h]
    | ok rp => simp [isExcluded, h, matchExclusions, List.any_eq_true]
  · intro hperm
    cases h : goRel cwd path with
    | error e => simp [isExcluded, h]
    | ok rp =>
      simp only [isExcluded, h]
      exact any_eq_of_perm hperm (fun p => patternMatches rp p)
  · cases h : goRel cwd path with
    | error e => simp [isExcluded, h]
    | ok rp => simp [isExcluded, h, matchExclusions]

/-- Claim C9, witness: reordering a two-pattern exclusion list leaves the
result unchanged, and the empty list excludes nothing. -/
theorem c9_witness :
    isExcluded "/w" "/w/a.swp" ["zzz", "*.swp"] = isExcluded "/w" "/w/a.swp" ["*.swp", "zzz"]
    ∧ isExcluded "/w" "/w/a.swp" ([] : List String) = false :=
  ⟨(c9_existential_or "/w" "/w/a.swp" ["zzz", "*.swp"] ["*.swp", "zzz"]).2.1 (by decide),
   (c9_existential_or "/w" "/w/a.swp" [] []).2.2⟩

/-- Claim C10: with watch mode enabled and a remote source (and the
required local destination), a session whose ignore file loads performs
exactly the single initial synchronization, prints the notice that watch
mode needs a local source instead of starting the watcher, and terminates
normally. -/
theorem c10_watch_remote_source_skips (cfg : MainConfig) (excl : List String)
    (hw : cfg.watch = true)
    (hs : isLocalArg cfg.sourceArg = false)
    (hd : isLocalArg cfg.destArg = true)
    (hi : loadIgnoreFile cfg.ignoreRead = Except.ok excl) :
    mainModel cfg = MainResult.ran 1 WatchOutcome.skipNotice := by
  simp [mainModel, hs, hd, hi, watchDecision, hw]

/-- Claim C10, witness: a pull session from a remote host with watch mode
on performs the single initial synchronization and skips the watcher. -/
theorem c10_witness :
    mainModel ⟨true, "host", ".", IgnoreRead.notExist⟩
      = MainResult.ran 1 WatchOutcome.skipNotice :=
  c10_watch_remote_source_skips ⟨true, "host", ".", IgnoreRead.notExist⟩ []
    rfl (by decide) (by decide) rfl
